import Mathlib

/-!
Verification of the `ErgodicWalk` recurring-action scheduler
(`src/ergodic-walk.ts`) against its natural-language specification.

The scheduler is single-threaded and cooperative: the only suspension
point is the `await` of the step callback (`onJump`, called `onStep` in
the spec).  We embed it as an explicit state machine.  Every public
method, and every timer callback, runs atomically up to its suspension
point; a suspended call is recorded as a pending frame and is resumed by
an explicit `resolve` event carrying the boolean result of the step.

Timers: `setTimeout` arms a timer with a fresh id and the armed timers
live in a table (`armed`); the scheduler's private `timerId` slot holds
at most one id (exactly as `this.timerId` in the source).  `clearTimeout`
removes a timer from the table.  A timer that fires is removed from the
table and runs its callback: the placeholder timer armed at the top of
`start` has callback `() => \x7b\x7d` (does nothing); a recurring timer has
callback `() => this.continue()`.  Note that, as in JavaScript, a fired
timer does not null out `this.timerId`, so `isActive` remains true after
a recurring timer fires, which is what lets `continue` proceed.

Callback invocations (`onJump` and `onStateChange`) are recorded in an
append-only log, in program order.
-/

/-- The configuration of a walk: `interval` (ms) plus the auxiliary
display flag `showBar` (source `WalkConfig`). -/
structure WalkConfig where
  interval : Int
  showBar : Bool
deriving DecidableEq, Repr

/-- What an armed timer will do when it fires: the placeholder armed at
the top of `start` does nothing; a recurring timer calls `continue`. -/
inductive TimerKind where
  | placeholder
  | recurring
deriving DecidableEq, Repr

/-- An armed timer: its handle id, its callback kind, and the delay it
was armed with. -/
structure Timer where
  id : Nat
  kind : TimerKind
  delay : Int
deriving DecidableEq, Repr

/-- An observable callback invocation: `state b c` is
`onStateChange(b, c)`; `jump c` is the invocation of `onJump(c)`. -/
inductive Ev where
  | state (active : Bool) (cfg : Option WalkConfig)
  | jump (cfg : WalkConfig)
deriving DecidableEq, Repr

/-- Which method body is suspended at the `await` of the step action. -/
inductive PendKind where
  | startK
  | continueK
deriving DecidableEq, Repr

/-- A suspended call awaiting its step result. -/
structure Frame where
  id : Nat
  kind : PendKind
deriving DecidableEq, Repr

/-- The full scheduler state: the two private fields of the class
(`timerId`, `currentConfig`), plus the runtime's timer table, the
suspended calls, a fresh-id counter, and the callback log. -/
structure WalkState where
  timerId : Option Nat
  currentConfig : Option WalkConfig
  armed : List Timer
  pending : List Frame
  nextId : Nat
  log : List Ev
deriving DecidableEq, Repr

/-- Source: `get isActive() \x7b return this.timerId !== null; \x7d`. -/
def isActive (s : WalkState) : Bool :=
  s.timerId.isSome

/-- Record a callback invocation. -/
def logEv (s : WalkState) (e : Ev) : WalkState :=
  { s with log := s.log ++ [e] }

/-- `setTimeout`: arm a fresh timer, return its handle. -/
def armTimer (s : WalkState) (k : TimerKind) (d : Int) : WalkState × Nat :=
  ({ s with armed := s.armed ++ [⟨s.nextId, k, d⟩], nextId := s.nextId + 1 },
   s.nextId)

/-- `clearTimeout`: remove a timer from the table (no-op on an already
fired or unknown handle). -/
def clearTimer (s : WalkState) (i : Nat) : WalkState :=
  { s with armed := s.armed.filter (fun t => t.id != i) }

/-- Source `stop()`: no-op when `timerId` is null; otherwise clear the
timer, null the slot and notify `onStateChange(false, null)`.  Note the
source does NOT clear `currentConfig` here. -/
def stopFn (s : WalkState) : WalkState :=
  match s.timerId with
  | none => s
  | some i =>
      let s1 := clearTimer s i
      let s2 := { s1 with timerId := none }
      logEv s2 (.state false none)

/-- Source `start(config)`, run atomically up to the `await` of
`onJump`: stop any active walk, validate the interval, record the
configuration, arm the placeholder timer, notify `(true, config)`,
invoke `onJump(config)` and suspend. -/
def startSeg (s : WalkState) (cfg : WalkConfig) : WalkState :=
  let s1 := if isActive s then stopFn s else s
  if cfg.interval ≤ 0 then s1
  else
    let s2 := { s1 with currentConfig := some cfg }
    let p := armTimer s2 .placeholder cfg.interval
    let s4 := { p.1 with timerId := some p.2 }
    let s5 := logEv s4 (.state true (some cfg))
    let s6 := logEv s5 (.jump cfg)
    { s6 with pending := s6.pending ++ [⟨s6.nextId, .startK⟩],
              nextId := s6.nextId + 1 }

/-- Resumption of `start` after its `await`: bail if no longer active;
on success overwrite `timerId` with a fresh recurring timer (the old
slot value is NOT cleared from the table); on failure call `stop()`.
The `none` configuration branch is unreachable (the source dereferences
`this.currentConfig` there). -/
def startResume (s : WalkState) (success : Bool) : WalkState :=
  if isActive s then
    if success then
      match s.currentConfig with
      | some cfg =>
          let p := armTimer s .recurring cfg.interval
          { p.1 with timerId := some p.2 }
      | none => s
    else stopFn s
  else s

/-- The body of the private `continue()` up to its `await`: bail if not
active, otherwise invoke `onJump(currentConfig)` and suspend. -/
def continueFireSeg (s : WalkState) : WalkState :=
  if isActive s then
    match s.currentConfig with
    | some cfg =>
        let s1 := logEv s (.jump cfg)
        { s1 with pending := s1.pending ++ [⟨s1.nextId, .continueK⟩],
                  nextId := s1.nextId + 1 }
    | none => s
  else s

/-- Resumption of `continue` after its `await`: on success while still
active, overwrite `timerId` with a fresh recurring timer; otherwise
call `stop()`. -/
def continueResume (s : WalkState) (success : Bool) : WalkState :=
  if success && isActive s then
    match s.currentConfig with
    | some cfg =>
        let p := armTimer s .recurring cfg.interval
        { p.1 with timerId := some p.2 }
    | none => s
  else stopFn s

/-- Source `forceNext()`: no-op when inactive, else re-enter `start`
with the current configuration. -/
def forceNextSeg (s : WalkState) : WalkState :=
  if isActive s then
    match s.currentConfig with
    | some cfg => startSeg s cfg
    | none => s
  else s

/-- Source `resetTimer()`: no-op when inactive, else clear the pending
timer and arm a fresh recurring one for the same interval. -/
def resetTimerSeg (s : WalkState) : WalkState :=
  if isActive s then
    match s.currentConfig, s.timerId with
    | some cfg, some i =>
        let s1 := clearTimer s i
        let p := armTimer s1 .recurring cfg.interval
        { p.1 with timerId := some p.2 }
    | _, _ => s
  else s

/-- A timer with handle `i` fires: it leaves the armed table and runs
its callback (nothing for a placeholder, `continue()` for a recurring
timer).  Firing an unarmed handle is impossible at runtime and is a
no-op here. -/
def fireTimer (s : WalkState) (i : Nat) : WalkState :=
  match s.armed.find? (fun t => t.id == i) with
  | none => s
  | some t =>
      let s1 := clearTimer s i
      match t.kind with
      | .placeholder => s1
      | .recurring => continueFireSeg s1

/-- The step action awaited by suspended frame `i` resolves with
`success`; the frame is removed and the corresponding resumption code
runs.  Resolving an unknown frame is a no-op. -/
def resolveStep (s : WalkState) (i : Nat) (success : Bool) : WalkState :=
  match s.pending.find? (fun f => f.id == i) with
  | none => s
  | some f =>
      let s1 := { s with pending := s.pending.filter (fun g => g.id != i) }
      match f.kind with
      | .startK => startResume s1 success
      | .continueK => continueResume s1 success

/-- One atomic event of an execution: a host call to a public method
(run to its suspension point or return), a timer firing, or a pending
step resolving. -/
inductive Act where
  | start (cfg : WalkConfig)
  | stop
  | forceNext
  | resetTimer
  | fire (i : Nat)
  | resolve (i : Nat) (success : Bool)
deriving DecidableEq, Repr

/-- The transition function of the scheduler. -/
def stepAct (s : WalkState) (a : Act) : WalkState :=
  match a with
  | .start cfg => startSeg s cfg
  | .stop => stopFn s
  | .forceNext => forceNextSeg s
  | .resetTimer => resetTimerSeg s
  | .fire i => fireTimer s i
  | .resolve i b => resolveStep s i b

/-- The state of a freshly constructed scheduler. -/
def initState : WalkState :=
  ⟨none, none, [], [], 0, []⟩

/-- Run a sequence of events on a fresh scheduler. -/
def runActs (acts : List Act) : WalkState :=
  acts.foldl stepAct initState

/-- The configurations passed to `onJump`, in order. -/
def jumpConfigs (l : List Ev) : List WalkConfig :=
  l.filterMap (fun e => match e with | .jump c => some c | _ => none)

/-- The configurations of `onStateChange(true, _)` notifications. -/
def activations (l : List Ev) : List (Option WalkConfig) :=
  l.filterMap (fun e => match e with | .state true c => some c | _ => none)

/-- How many `onStateChange(false, null)` notifications the log holds. -/
def stopNotifs (l : List Ev) : Nat :=
  (l.filter (fun e => match e with | .state false none => true | _ => false)).length

/-- How many armed timers would fire `continue()` into the scheduler. -/
def recurringCount (ts : List Timer) : Nat :=
  (ts.filter (fun t => t.kind == TimerKind.recurring)).length

/-!  ## Reachability invariant

In every reachable state, an active scheduler holds a configuration,
and every held configuration has a positive interval (it was validated
by `start`).
-/

/-- Whenever the timer slot is occupied, a configuration with positive
interval is held. -/
def walkInv (s : WalkState) : Prop :=
  s.timerId.isSome = true → ∃ c, s.currentConfig = some c ∧ 0 < c.interval

theorem walkInv_mono {s s' : WalkState} (ht : s'.timerId = s.timerId)
    (hc : s'.currentConfig = s.currentConfig) (h : walkInv s) : walkInv s' := by
  intro hs
  rcases h (by rw [← ht]; exact hs) with ⟨c, hc', hpos⟩
  exact ⟨c, by rw [hc, hc'], hpos⟩

theorem walkInv_stopFn {s : WalkState} (h : walkInv s) : walkInv (stopFn s) := by
  unfold stopFn
  cases hid : s.timerId with
  | none => exact h
  | some i => intro hc; simp [logEv, clearTimer] at hc

theorem walkInv_startSeg {s : WalkState} (cfg : WalkConfig) (h : walkInv s) :
    walkInv (startSeg s cfg) := by
  unfold startSeg
  by_cases hI : cfg.interval ≤ 0
  · simp only [hI, if_true]
    by_cases ha : isActive s
    · simpa [ha] using walkInv_stopFn h
    · simpa [ha] using h
  · simp only [hI, if_false]
    intro _
    exact ⟨cfg, by simp [armTimer, logEv], by omega⟩

theorem walkInv_startResume {s : WalkState} (b : Bool) (h : walkInv s) :
    walkInv (startResume s b) := by
  unfold startResume
  by_cases ha : isActive s
  · simp only [ha, if_true]
    cases b with
    | false => simpa using walkInv_stopFn h
    | true =>
        rcases h (by simpa [isActive] using ha) with ⟨c, hc, hpos⟩
        simp only [hc, if_true]
        intro _
        exact ⟨c, by simp [armTimer, hc], hpos⟩
  · simpa [ha] using h

theorem walkInv_continueResume {s : WalkState} (b : Bool) (h : walkInv s) :
    walkInv (continueResume s b) := by
  unfold continueResume
  by_cases hb : (b && isActive s) = true
  · simp only [hb, if_true]
    rcases h (by simpa [isActive] using (Bool.and_elim_right hb)) with ⟨c, hc, hpos⟩
    simp only [hc]
    intro _
    exact ⟨c, by simp [armTimer, hc], hpos⟩
  · simp only [Bool.not_eq_true] at hb
    simp only [hb, Bool.false_eq_true, if_false]
    exact walkInv_stopFn h

theorem walkInv_continueFireSeg {s : WalkState} (h : walkInv s) :
    walkInv (continueFireSeg s) := by
  unfold continueFireSeg
  by_cases ha : isActive s
  · simp only [ha, if_true]
    cases hc : s.currentConfig with
    | none => exact h
    | some cfg => exact walkInv_mono (by simp [logEv]) (by simp [logEv, hc]) h
  · simpa [ha] using h

theorem walkInv_resetTimerSeg {s : WalkState} (h : walkInv s) :
    walkInv (resetTimerSeg s) := by
  unfold resetTimerSeg
  by_cases ha : isActive s
  · simp only [ha, if_true]
    cases hc : s.currentConfig with
    | none => cases hid : s.timerId <;> exact h
    | some cfg =>
        cases hid : s.timerId with
        | none => exact h
        | some i =>
            rcases h (by simp [hid]) with ⟨c, hc', hpos⟩
            intro _
            exact ⟨c, by simp [armTimer, clearTimer, hc'], hpos⟩
  · simpa [ha] using h

theorem walkInv_forceNextSeg {s : WalkState} (h : walkInv s) :
    walkInv (forceNextSeg s) := by
  unfold forceNextSeg
  by_cases ha : isActive s
  · simp only [ha, if_true]
    cases hc : s.currentConfig with
    | none => exact h
    | some cfg => exact walkInv_startSeg cfg h
  · simpa [ha] using h

theorem walkInv_fireTimer {s : WalkState} (i : Nat) (h : walkInv s) :
    walkInv (fireTimer s i) := by
  unfold fireTimer
  cases hf : s.armed.find? (fun t => t.id == i) with
  | none => exact h
  | some t =>
      obtain ⟨tid, tk, td⟩ := t
      have h1 : walkInv (clearTimer s i) :=
        walkInv_mono (by simp [clearTimer]) (by simp [clearTimer]) h
      cases tk with
      | placeholder => exact h1
      | recurring => exact walkInv_continueFireSeg h1

theorem walkInv_resolveStep {s : WalkState} (i : Nat) (b : Bool) (h : walkInv s) :
    walkInv (resolveStep s i b) := by
  unfold resolveStep
  cases hf : s.pending.find? (fun f => f.id == i) with
  | none => exact h
  | some f =>
      obtain ⟨fid, fk⟩ := f
      have h1 : walkInv { s with pending := s.pending.filter (fun g => g.id != i) } :=
        walkInv_mono rfl rfl h
      cases fk with
      | startK => exact walkInv_startResume b h1
      | continueK => exact walkInv_continueResume b h1

theorem walkInv_stepAct {s : WalkState} (a : Act) (h : walkInv s) :
    walkInv (stepAct s a) := by
  cases a with
  | start cfg => exact walkInv_startSeg cfg h
  | stop => exact walkInv_stopFn h
  | forceNext => exact walkInv_forceNextSeg h
  | resetTimer => exact walkInv_resetTimerSeg h
  | fire i => exact walkInv_fireTimer i h
  | resolve i b => exact walkInv_resolveStep i b h

theorem walkInv_foldl (acts : List Act) :
    ∀ s : WalkState, walkInv s → walkInv (acts.foldl stepAct s) := by
  induction acts with
  | nil => intro s h; exact h
  | cons a rest ih => intro s h; exact ih _ (walkInv_stepAct a h)

theorem walkInv_runActs (acts : List Act) : walkInv (runActs acts) :=
  walkInv_foldl acts initState (by intro h; simp [initState] at h)

/-!  ## Shape lemmas for the atomic segments -/

/-- `start cfg` from an idle scheduler with a valid interval: record the
configuration, arm the placeholder, notify `(true, cfg)`, invoke the
step, suspend. -/
theorem startSeg_idle (s0 : WalkState) (cfg : WalkConfig)
    (h0 : s0.timerId = none) (hi : 0 < cfg.interval) :
    startSeg s0 cfg =
      { s0 with currentConfig := some cfg,
                timerId := some s0.nextId,
                armed := s0.armed ++ [⟨s0.nextId, .placeholder, cfg.interval⟩],
                log := s0.log ++ [.state true (some cfg), .jump cfg],
                pending := s0.pending ++ [⟨s0.nextId + 1, .startK⟩],
                nextId := s0.nextId + 2 } := by
  have h1 : ¬ cfg.interval ≤ 0 := by omega
  simp [startSeg, isActive, h0, h1, armTimer, logEv]

/-- `stop()` on an active scheduler: the timer is cleared, the slot is
nulled, one `(false, null)` notification fires, and the configuration
is left in place. -/
theorem stopFn_active (s : WalkState) (i : Nat) (h : s.timerId = some i) :
    stopFn s = { s with timerId := none,
                        armed := s.armed.filter (fun t => t.id != i),
                        log := s.log ++ [.state false none] } := by
  simp [stopFn, h, clearTimer, logEv]

/-!  ## Claims -/

/-- Claim C2, counterexample.  The claim says `start(config)` with
`intervalMs <= 0` is a no-op in every state.  On an Active scheduler it
is not: `start` stops the running walk (the supersession stop happens
BEFORE the interval validation in the source), so `isActive` flips to
false and an `onStateChange(false, null)` notification fires. -/
theorem c2_counterexample :
    isActive (runActs [.start ⟨5, true⟩]) = true ∧
    isActive (stepAct (runActs [.start ⟨5, true⟩]) (.start ⟨0, true⟩)) = false ∧
    (stepAct (runActs [.start ⟨5, true⟩]) (.start ⟨0, true⟩)).log
      = (runActs [.start ⟨5, true⟩]).log ++ [.state false none] := by decide

/-- Claim C2 (amended): `start(config)` with `intervalMs <= 0` is a
complete no-op on an Idle scheduler; on an Active scheduler it first
performs exactly a `stop()` (one `(false, null)` notification, timer
cleared, `isActive` becomes false) and then changes nothing further and
invokes no step. -/
theorem c2_amended_nonpositive_start (s : WalkState) (cfg : WalkConfig)
    (h : cfg.interval ≤ 0) :
    (s.timerId = none → stepAct s (.start cfg) = s) ∧
    (s.timerId ≠ none → stepAct s (.start cfg) = stopFn s) := by
  constructor
  · intro hid
    simp [stepAct, startSeg, isActive, hid, h]
  · intro hid
    have ha : isActive s = true := by
      simp [isActive, Option.isSome_iff_ne_none, hid]
    have hstop : (stopFn s).timerId = none := by
      rcases Option.ne_none_iff_exists'.mp hid with ⟨i, hi⟩
      simp [stopFn_active s i hi]
    simp [stepAct, startSeg, ha, h]

/-- Witness for Claim C2 (amended), at a fresh scheduler and at a
scheduler made Active by `start({interval: 5})`. -/
theorem c2_amended_witness :
    stepAct initState (.start ⟨0, true⟩) = initState ∧
    stepAct (runActs [.start ⟨5, true⟩]) (.start ⟨0, true⟩)
      = stopFn (runActs [.start ⟨5, true⟩]) :=
  ⟨(c2_amended_nonpositive_start initState ⟨0, true⟩ (by decide)).1 rfl,
   (c2_amended_nonpositive_start (runActs [.start ⟨5, true⟩]) ⟨0, true⟩
      (by decide)).2 (by decide)⟩

/-- Claim C3, counterexample.  The claim says the held configuration is
non-null iff `isActive`, and that `stop()` clears it.  After
`start({interval: 5}); stop()` the scheduler is Idle yet the
configuration is still held: `stop()` in the source nulls `timerId`
but never touches `currentConfig`. -/
theorem c3_counterexample :
    isActive (runActs [.start ⟨5, true⟩, .stop]) = false ∧
    (runActs [.start ⟨5, true⟩, .stop]).currentConfig = some ⟨5, true⟩ := by decide

/-- Claim C3 (amended): in every reachable state, `isActive` is true
iff the timer slot is occupied (that is its definition in the source),
and an occupied slot implies a held configuration; the converse fails
because `stop()` leaves `currentConfig` untouched. -/
theorem c3_amended_invariant (acts : List Act) :
    (isActive (runActs acts) = (runActs acts).timerId.isSome) ∧
    ((runActs acts).timerId.isSome = true →
      (runActs acts).currentConfig.isSome = true) ∧
    (∀ s : WalkState, (stopFn s).currentConfig = s.currentConfig) := by
  refine ⟨rfl, ?_, ?_⟩
  · intro h
    rcases walkInv_runActs acts h with ⟨c, hc, _⟩
    simp [hc]
  · intro s
    unfold stopFn
    cases s.timerId with
    | none => rfl
    | some i => simp [logEv, clearTimer]

/-- Witness for Claim C3 (amended): an active scheduler holds a
configuration. -/
theorem c3_amended_witness :
    (runActs [Act.start ⟨5, true⟩]).currentConfig.isSome = true :=
  (c3_amended_invariant [Act.start ⟨5, true⟩]).2.1 (by decide)

/-- Claim C4 is violated by the source: run `start(A)`; while A's first
step is in flight, supersede with `start(B)`; then let both pending
steps resolve `true`.  The stale resumption of `start(A)` passes the
`isActive` re-check (the slot holds B's placeholder) and arms a
recurring timer without clearing anything; B's resumption then arms a
second one, overwriting the slot but leaving the first timer armed.
Two timers that fire `continue()` into the scheduler are now
outstanding. -/
theorem c4_two_recurring_timers :
    recurringCount (runActs [.start ⟨5, true⟩, .start ⟨3, false⟩,
      .resolve 1 true, .resolve 3 true]).armed = 2 ∧
    (runActs [.start ⟨5, true⟩, .start ⟨3, false⟩,
      .resolve 1 true, .resolve 3 true]).timerId = some 5 := by decide

/-- Claim C5 is violated by the source: calling `start(B)` while
`start(A)`'s first step is still awaiting its result invokes the step
action again immediately, so two step invocations are in flight at
once (both suspended frames are pending, and the log shows `onJump(A)`
then `onJump(B)` with neither resolved). -/
theorem c5_two_steps_in_flight :
    (runActs [.start ⟨5, true⟩, .start ⟨3, false⟩]).pending.length = 2 ∧
    jumpConfigs (runActs [.start ⟨5, true⟩, .start ⟨3, false⟩]).log
      = [⟨5, true⟩, ⟨3, false⟩] := by decide

/-- Claim C8: `stop()` on an Idle scheduler changes no state and fires
no callback; for every state, `stop(); stop()` has exactly the effect
of one `stop()`; and an Active-to-Idle transition appends exactly one
`(false, null)` notification. -/
theorem c8_stop_idempotent (s : WalkState) :
    (s.timerId = none → stepAct s .stop = s) ∧
    (stepAct (stepAct s .stop) .stop = stepAct s .stop) ∧
    (s.timerId ≠ none →
      (stepAct s .stop).log = s.log ++ [.state false none]) := by
  refine ⟨?_, ?_, ?_⟩
  · intro hid
    simp [stepAct, stopFn, hid]
  · cases hid : s.timerId with
    | none => simp [stepAct, stopFn, hid]
    | some i =>
        have h1 := stopFn_active s i hid
        simp only [stepAct]
        rw [h1]
        rfl
  · intro hid
    rcases Option.ne_none_iff_exists'.mp hid with ⟨i, hi⟩
    simp [stepAct, stopFn_active s i hi]

/-- Witness for Claim C8, at a fresh scheduler (Idle) and at a
scheduler made Active by `start({interval: 5})`. -/
theorem c8_stop_idempotent_witness :
    stepAct initState Act.stop = initState ∧
    stepAct (stepAct (runActs [Act.start ⟨5, true⟩]) Act.stop) Act.stop
      = stepAct (runActs [Act.start ⟨5, true⟩]) Act.stop ∧
    (stepAct (runActs [Act.start ⟨5, true⟩]) Act.stop).log
      = (runActs [Act.start ⟨5, true⟩]).log ++ [Ev.state false none] :=
  ⟨(c8_stop_idempotent initState).1 rfl,
   (c8_stop_idempotent (runActs [Act.start ⟨5, true⟩])).2.1,
   (c8_stop_idempotent (runActs [Act.start ⟨5, true⟩])).2.2 (by decide)⟩

/-- Claim C10: `forceNext()` and `resetTimer()` on an Idle scheduler
are complete no-ops: the whole state (timer slot, configuration, armed
timers, log) is unchanged and no callback is invoked. -/
theorem c10_idle_noops (s : WalkState) (h : s.timerId = none) :
    stepAct s .forceNext = s ∧ stepAct s .resetTimer = s := by
  constructor
  · simp [stepAct, forceNextSeg, isActive, h]
  · simp [stepAct, resetTimerSeg, isActive, h]

/-- Witness for Claim C10, at a fresh scheduler and at a scheduler
stopped after a walk. -/
theorem c10_idle_noops_witness :
    stepAct initState Act.forceNext = initState ∧
    stepAct (runActs [Act.start ⟨5, true⟩, Act.stop]) Act.resetTimer
      = runActs [Act.start ⟨5, true⟩, Act.stop] :=
  ⟨(c10_idle_noops initState rfl).1,
   (c10_idle_noops (runActs [Act.start ⟨5, true⟩, Act.stop]) (by decide)).2⟩

/-- Claim C1: `stop()` called while `start(config)`'s first step is
suspended performs the full shutdown (exactly one `(false, null)`
notification in total, `isActive` false), and when the pending step
later resolves — with either boolean — the resumed `start` call merely
consumes its frame: it arms no timer, fires no notification, and
changes nothing else. -/
theorem c1_stop_during_first_step (s0 : WalkState) (cfg : WalkConfig) (b : Bool)
    (h0 : s0.timerId = none) (hp : s0.pending = []) (hi : 0 < cfg.interval) :
    stopNotifs ((stepAct (stepAct (stepAct s0 (.start cfg)) .stop)
        (.resolve (s0.nextId + 1) b)).log.drop s0.log.length) = 1 ∧
    (stepAct (stepAct s0 (.start cfg)) .stop).timerId = none ∧
    stepAct (stepAct (stepAct s0 (.start cfg)) .stop) (.resolve (s0.nextId + 1) b)
      = { stepAct (stepAct s0 (.start cfg)) .stop with pending := [] } := by
  have hA : stepAct s0 (.start cfg) =
      { s0 with currentConfig := some cfg,
                timerId := some s0.nextId,
                armed := s0.armed ++ [⟨s0.nextId, .placeholder, cfg.interval⟩],
                log := s0.log ++ [.state true (some cfg), .jump cfg],
                pending := s0.pending ++ [⟨s0.nextId + 1, .startK⟩],
                nextId := s0.nextId + 2 } := startSeg_idle s0 cfg h0 hi
  have hB : stepAct (stepAct s0 (.start cfg)) .stop =
      { s0 with currentConfig := some cfg,
                timerId := none,
                armed := (s0.armed ++ [(⟨s0.nextId, .placeholder, cfg.interval⟩ : Timer)]).filter
                  (fun t => t.id != s0.nextId),
                log := s0.log ++ [.state true (some cfg), .jump cfg, .state false none],
                pending := [⟨s0.nextId + 1, .startK⟩],
                nextId := s0.nextId + 2 } := by
    rw [hA]
    simp only [stepAct]
    rw [stopFn_active _ s0.nextId rfl]
    simp [hp]
  refine ⟨?_, by rw [hB], ?_⟩
  · rw [hB]
    simp only [stepAct, resolveStep]
    simp [startResume, isActive, stopNotifs, List.drop_left]
  · rw [hB]
    simp only [stepAct, resolveStep]
    simp [startResume, isActive]

/-- Witness for Claim C1, on a fresh scheduler with
`start({interval: 5, showBar: true})`, the step resolving `true`. -/
theorem c1_stop_during_first_step_witness :
    stopNotifs ((stepAct (stepAct (stepAct initState (.start ⟨5, true⟩)) .stop)
        (.resolve 1 true)).log.drop 0) = 1 ∧
    (stepAct (stepAct initState (.start ⟨5, true⟩)) .stop).timerId = none ∧
    stepAct (stepAct (stepAct initState (.start ⟨5, true⟩)) .stop) (.resolve 1 true)
      = { stepAct (stepAct initState (.start ⟨5, true⟩)) .stop with pending := [] } :=
  c1_stop_during_first_step initState ⟨5, true⟩ true rfl rfl (by decide)

/-- Claim C6: a step resolving `false` while the scheduler is still
Active terminates the walk at once — transition to Idle plus a single
`(false, null)` notification, whichever kind of step it was; and on the
very first step of a fresh walk, `onStateChange` fires exactly twice,
`(true, cfg)` then `(false, null)`, `isActive` ends false, and no
recurring timer is ever armed (the only timer ever armed is the
placeholder, and the stop clears it). -/
theorem c6_step_failure_terminates :
    (∀ (s : WalkState) (f : Frame), isActive s = true →
        s.pending.find? (fun g => g.id == f.id) = some f →
        (resolveStep s f.id false).timerId = none ∧
        (resolveStep s f.id false).log = s.log ++ [Ev.state false none]) ∧
    (∀ (s0 : WalkState) (cfg : WalkConfig),
        s0.timerId = none → s0.pending = [] → s0.armed = [] →
        0 < cfg.interval →
        (stepAct (stepAct s0 (.start cfg)) (.resolve (s0.nextId + 1) false)).timerId
          = none ∧
        recurringCount (stepAct s0 (.start cfg)).armed = 0 ∧
        recurringCount
          (stepAct (stepAct s0 (.start cfg)) (.resolve (s0.nextId + 1) false)).armed
          = 0 ∧
        (stepAct (stepAct s0 (.start cfg)) (.resolve (s0.nextId + 1) false)).log
          = s0.log ++ [Ev.state true (some cfg), Ev.jump cfg, Ev.state false none]) := by
  constructor
  · intro s f ha hf
    rcases Option.isSome_iff_exists.mp (by simpa [isActive] using ha) with ⟨i, hi⟩
    obtain ⟨fid, fk⟩ := f
    cases fk with
    | startK =>
        simp only [resolveStep, hf, startResume, isActive, hi, Option.isSome_some,
          Bool.false_eq_true, if_false, if_true]
        simp [stopFn, clearTimer, logEv]
    | continueK =>
        simp only [resolveStep, hf, continueResume, Bool.false_and,
          Bool.false_eq_true, if_false]
        simp [stopFn, clearTimer, logEv, hi]
  · intro s0 cfg h0 hp ha hi
    have hA := startSeg_idle s0 cfg h0 hi
    have hA' : stepAct s0 (.start cfg) =
        { s0 with currentConfig := some cfg,
                  timerId := some s0.nextId,
                  armed := s0.armed ++ [(⟨s0.nextId, .placeholder, cfg.interval⟩ : Timer)],
                  log := s0.log ++ [.state true (some cfg), .jump cfg],
                  pending := s0.pending ++ [⟨s0.nextId + 1, .startK⟩],
                  nextId := s0.nextId + 2 } := hA
    refine ⟨?_, ?_, ?_, ?_⟩ <;>
      simp only [stepAct] at hA' ⊢ <;>
      rw [hA'] <;>
      simp [resolveStep, hp, startResume, isActive, stopFn, clearTimer, logEv,
        recurringCount, ha]

/-- Witness for Claim C6: the general part applied to a scheduler
suspended in its first step, and the first-step scenario on a fresh
scheduler with `start({interval: 5, showBar: true})`. -/
theorem c6_step_failure_terminates_witness :
    ((resolveStep (runActs [Act.start ⟨5, true⟩]) 1 false).timerId = none) ∧
    ((stepAct (stepAct initState (Act.start ⟨5, true⟩)) (Act.resolve 1 false)).log
      = [Ev.state true (some ⟨5, true⟩), Ev.jump ⟨5, true⟩, Ev.state false none]) :=
  ⟨(c6_step_failure_terminates.1 (runActs [Act.start ⟨5, true⟩]) ⟨1, .startK⟩
      (by decide) (by decide)).1,
   (c6_step_failure_terminates.2 initState ⟨5, true⟩ rfl rfl rfl (by decide)).2.2.2⟩

/-- Claim C9: on every reachable Active state, `forceNext()` delegates
to `start` with the current configuration, so the observer receives the
full deactivate/activate pair — `(false, null)` then `(true, cfg)` —
and only then is the step action invoked. -/
theorem c9_forceNext_full_cycle (acts : List Act)
    (h : (runActs acts).timerId.isSome = true) :
    ∃ cfg, (runActs acts).currentConfig = some cfg ∧
      (stepAct (runActs acts) .forceNext).log
        = (runActs acts).log
            ++ [Ev.state false none, Ev.state true (some cfg), Ev.jump cfg] := by
  rcases walkInv_runActs acts h with ⟨cfg, hc, hpos⟩
  rcases Option.isSome_iff_exists.mp h with ⟨i, hi⟩
  refine ⟨cfg, hc, ?_⟩
  have h1 : ¬ cfg.interval ≤ 0 := by omega
  have hstop := stopFn_active (runActs acts) i hi
  simp only [stepAct, forceNextSeg, isActive, h, hc, if_true, startSeg]
  rw [hstop]
  simp [isActive, hi, h1, armTimer, logEv]

/-- Witness for Claim C9, on a scheduler made Active by
`start({interval: 5, showBar: true})`. -/
theorem c9_forceNext_full_cycle_witness :
    ∃ cfg, (runActs [Act.start ⟨5, true⟩]).currentConfig = some cfg ∧
      (stepAct (runActs [Act.start ⟨5, true⟩]) .forceNext).log
        = (runActs [Act.start ⟨5, true⟩]).log
            ++ [Ev.state false none, Ev.state true (some cfg), Ev.jump cfg] :=
  c9_forceNext_full_cycle [Act.start ⟨5, true⟩] (by decide)

/-!  ## A clean recurring walk (for Claim C7)

One walk on a fresh scheduler: `start cfg`, its first step resolving
`true`, then `n` recurring cycles, each of which is the armed timer
firing (which invokes `onJump`) followed by that step resolving `true`.
-/

/-- One recurring cycle: the timer held in the slot fires, then the
step it invoked resolves `true`.  The frame created by the firing
carries id `s.nextId`. -/
def cycleOnce (s : WalkState) : WalkState :=
  stepAct (stepAct s (.fire (s.timerId.getD 0))) (.resolve s.nextId true)

/-- The state after `start cfg` on a fresh scheduler, the first step
resolving `true`, and `n` recurring cycles. -/
def walkRun (cfg : WalkConfig) : Nat → WalkState
  | 0 => stepAct (stepAct initState (.start cfg)) (.resolve 1 true)
  | n + 1 => cycleOnce (walkRun cfg n)

/-- Closed form of `walkRun`: the placeholder from `start` is still in
the table (its callback does nothing), the slot holds the current
recurring timer, and the log is the activation, the first jump, and one
jump per cycle — every one carrying exactly `cfg`. -/
def walkExpected (cfg : WalkConfig) (n : Nat) : WalkState :=
  { timerId := some (2 * n + 2),
    currentConfig := some cfg,
    armed := [⟨0, .placeholder, cfg.interval⟩, ⟨2 * n + 2, .recurring, cfg.interval⟩],
    pending := [],
    nextId := 2 * n + 3,
    log := Ev.state true (some cfg) :: Ev.jump cfg :: List.replicate n (Ev.jump cfg) }

theorem walkRun_eq (cfg : WalkConfig) (hi : 0 < cfg.interval) :
    ∀ n, walkRun cfg n = walkExpected cfg n := by
  have h1 : ¬ cfg.interval ≤ 0 := by omega
  intro n
  induction n with
  | zero =>
      simp [walkRun, stepAct, startSeg, isActive, initState, armTimer, logEv, h1,
        resolveStep, startResume, walkExpected]
  | succ n ih =>
      rw [walkRun, ih]
      have e1 : (((0 : Nat) == 2 * n + 2) : Bool) = false := by
        simp only [beq_eq_false_iff_ne]
        omega
      have e2 : (((0 : Nat) != 2 * n + 2) : Bool) = true := by
        simp [bne, e1]
      have e3 : (((2 * n + 2 : Nat) != 2 * n + 2) : Bool) = false := by
        simp [bne]
      have e4 : (((2 * n + 3 : Nat) != 2 * n + 3) : Bool) = false := by
        simp [bne]
      have harith : 2 * (n + 1) + 2 = 2 * n + 3 + 1 := by omega
      have harith2 : 2 * (n + 1) + 3 = 2 * n + 3 + 1 + 1 := by omega
      have hrep : List.replicate (n + 1) (Ev.jump cfg)
          = List.replicate n (Ev.jump cfg) ++ [Ev.jump cfg] :=
        List.replicate_succ' n (Ev.jump cfg)
      simp only [cycleOnce, walkExpected, stepAct, fireTimer, Option.getD_some,
        List.find?, e1, e2, e3, Bool.false_eq_true, clearTimer, List.filter,
        continueFireSeg, isActive, Option.isSome_some, if_true, logEv,
        resolveStep, continueResume, armTimer, beq_self_eq_true, e4,
        Bool.true_and, harith, harith2, hrep]
      simp [List.filter, e2, e3, e4]

theorem jumpConfigs_replicate (cfg : WalkConfig) (n : Nat) :
    jumpConfigs (List.replicate n (Ev.jump cfg)) = List.replicate n cfg := by
  induction n with
  | zero => rfl
  | succ n ih => simp [jumpConfigs, List.replicate_succ] at ih ⊢

theorem activations_replicate (cfg : WalkConfig) (n : Nat) :
    activations (List.replicate n (Ev.jump cfg)) = [] := by
  induction n with
  | zero => rfl
  | succ n ih => simp [activations, List.replicate_succ] at ih ⊢

/-- Claim C7: in a walk started with `start(cfg)` and running through
any number `n` of successful recurring steps, every `onJump` invocation
(there are `n + 1` of them) and the single activating
`onStateChange(true, _)` notification carry exactly the configuration
value passed to `start` — interval and the opaque `showBar` field
untouched. -/
theorem c7_config_passthrough (cfg : WalkConfig) (n : Nat)
    (hi : 0 < cfg.interval) :
    jumpConfigs (walkRun cfg n).log = List.replicate (n + 1) cfg ∧
    activations (walkRun cfg n).log = [some cfg] := by
  rw [walkRun_eq cfg hi n]
  constructor
  · simp [walkExpected, jumpConfigs, jumpConfigs_replicate, List.replicate_succ]
  · simp [walkExpected, activations, activations_replicate]

/-- Witness for Claim C7, with `cfg = {interval: 7, showBar: true}` and
two recurring cycles after the first step. -/
theorem c7_config_passthrough_witness :
    jumpConfigs (walkRun ⟨7, true⟩ 2).log = List.replicate 3 (⟨7, true⟩ : WalkConfig) ∧
    activations (walkRun ⟨7, true⟩ 2).log = [some ⟨7, true⟩] :=
  c7_config_passthrough ⟨7, true⟩ 2 (by decide)
